import Mathlib

/-!
Verification of the Annotation Retrieval & Consensus Engine
(repository maksym33/hackathon2024) against its specification.

Python strings are modelled as `List Char` (`Str`); Python functions from
the repository are translated into executable Lean definitions, keeping the
source names where Lean allows.  Machine-level concerns that the claims do
not touch (the MD5 compression function of `hashlib`, the LLM network
client, the record store) appear as explicit parameters of the definitions
that use them.
-/

namespace HackathonSpec

/-- Python strings are modelled as lists of characters. -/
abbrev Str := List Char

/-- The opening curly brace character (written via its code point). -/
def lbrace : Char := Char.ofNat 123

/-- The closing curly brace character (written via its code point). -/
def rbrace : Char := Char.ofNat 125

/-- The backtick character (written via its code point). -/
def backtickChar : Char := Char.ofNat 96

/-- The backslash character (written via its code point). -/
def backslashChar : Char := Char.ofNat 92

/-- Python's whitespace class for `str.strip` and the regex class \s,
restricted to its ASCII members (space, tab, newline, carriage return,
vertical tab, form feed).  All texts appearing in the repository's cache
keys and prompts are ASCII, so this restriction is faithful on the
modelled domain. -/
def isPySpace (c : Char) : Bool :=
  c = ' ' || c = '\t' || c = '\n' || c = '\r' || c = '\x0b' || c = '\x0c'

/-- Python `str.strip()`: remove leading and trailing whitespace. -/
def pyStrip (s : Str) : Str :=
  ((s.dropWhile isPySpace).reverse.dropWhile isPySpace).reverse

/-- The run state of the whitespace-collapsing scan: was the previous
character part of a whitespace run? -/
def collapseWsAux : Bool → Str → Str
  | _, [] => []
  | prevSpace, c :: cs =>
    if isPySpace c then
      if prevSpace then collapseWsAux true cs
      else ' ' :: collapseWsAux true cs
    else c :: collapseWsAux false cs

/-- The regex substitution `re.sub(r"\s+", " ", s)`: replace every maximal
run of whitespace characters by a single space (emitted at the first
character of the run). -/
def collapseWs (s : Str) : Str := collapseWsAux false s

/-- The scan of Python `s.replace(pat, rep)`: consume one character per
step; `skip > 0` means the scan is inside an already-replaced occurrence
of the pattern and the character is dropped. -/
def replaceAllAux (pat rep : Str) : Nat → Str → Str
  | _, [] => []
  | skip+1, _ :: cs => replaceAllAux pat rep skip cs
  | 0, c :: cs =>
    if pat.isPrefixOf (c :: cs) ∧ pat ≠ [] then
      rep ++ replaceAllAux pat rep (pat.length - 1) cs
    else
      c :: replaceAllAux pat rep 0 cs

/-- Python `s.replace(pat, rep)` for a non-empty pattern `pat`:
replace every non-overlapping occurrence, scanning left to right. -/
def replaceAll (pat rep s : Str) : Str := replaceAllAux pat rep 0 s

/-- Python `s.replace(ch, "")` for a single character: remove every
occurrence. -/
def removeAll (ch : Char) (s : Str) : Str :=
  s.filter (fun c => !(c = ch))

/-- The decimal digit character for `d` (`0 ≤ d ≤ 9`). -/
def digitChar (d : Nat) : Char := Char.ofNat (48 + d)

/-- The digit scan of `str(n)`, with enough fuel to cover every digit
(one division by ten per unit of fuel). -/
def natReprAux : Nat → Nat → Str
  | 0, _ => []
  | fuel+1, n =>
    if n < 10 then [digitChar n]
    else natReprAux fuel (n / 10) ++ [digitChar (n % 10)]

/-- Python `str(n)` for a natural number: decimal digits, most significant
first. -/
def natRepr (n : Nat) : Str := natReprAux (n + 1) n

/-- Python string comparison `a < b`: lexicographic by code point. -/
def strLt : Str → Str → Bool
  | [], [] => false
  | [], _ :: _ => true
  | _ :: _, [] => false
  | a :: as, b :: bs =>
    if a < b then true
    else if b < a then false
    else strLt as bs

/-- First-match association-list lookup, modelling Python `dict[k]`
access on a dict represented as a list of key/value pairs. -/
def alookup (k : Str) : List (Str × Str) → Option Str
  | [] => none
  | kv :: rest => if kv.1 = k then some kv.2 else alookup k rest

/-- The deduplicating scan behind `dedupFirst`: `seen` holds the elements
already emitted. -/
def dedupFirstAux (seen : List Str) : List Str → List Str
  | [] => []
  | x :: xs =>
    if x ∈ seen then dedupFirstAux seen xs
    else x :: dedupFirstAux (x :: seen) xs

/-- Deduplication keeping the first occurrence of each element, modelling
the column order of a pandas DataFrame built from a list of dicts. -/
def dedupFirst (l : List Str) : List Str := dedupFirstAux [] l

/-- Python `", ".join(parts)`. -/
def joinCommaSpace (parts : List Str) : Str :=
  List.intercalate (',' :: ' ' :: []) parts

/-- Python `" ".join(parts)`. -/
def joinSpaces (parts : List Str) : Str :=
  List.intercalate (' ' :: []) parts

/-- Decidable equality of results, used to settle concrete instances by
computation. -/
instance exceptDecEq {ε α : Type} [DecidableEq ε] [DecidableEq α] :
    DecidableEq (Except ε α)
  | .error e1, .error e2 =>
    match decEq e1 e2 with
    | isTrue h => isTrue (by rw [h])
    | isFalse h => isFalse (fun hc => by cases hc; exact h rfl)
  | .error _, .ok _ => isFalse (fun hc => Except.noConfusion hc)
  | .ok _, .error _ => isFalse (fun hc => Except.noConfusion hc)
  | .ok a1, .ok a2 =>
    match decEq a1 a2 with
    | isTrue h => isTrue (by rw [h])
    | isFalse h => isFalse (fun hc => by cases hc; exact h rfl)

/-! ## Embedding of cl/runtime/primitive/string_util.py -/

/-- User-facing errors raised by the digest and key layers
(cl.runtime.log.exceptions.user_error.UserError). -/
inductive UserErr
  /-- StringUtil.digest: the final digest contains a disallowed delimiter
  (backslash or semicolon). -/
  | disallowedDelimiters (digestText : Str)
  /-- Completion.get_key: the llm field is not set. -/
  | emptyLlm
  /-- Completion.get_key: the query field is None or the empty string. -/
  | emptyQuery
  deriving DecidableEq, Repr

/-- The truncation condition of StringUtil.digest:
`"\n" in text or len(text) > 80`. -/
def digestTruncated (text : Str) : Bool :=
  '\n' ∈ text || 80 < text.length

/-- The shortened form computed by StringUtil.digest (lines 60-69 of
string_util.py): if the text is multiline or longer than 80 characters,
take the first 160 characters, strip, collapse whitespace runs to single
spaces, strip, truncate to 80 characters and strip again; otherwise the
text itself. -/
def digestShortened (text : Str) : Str :=
  if digestTruncated text then
    pyStrip ((pyStrip (collapseWs (pyStrip (text.take 160)))).take 80)
  else text

/-- The shortened form as worded by the specification ("take the first 160
characters, collapsing whitespace runs to single spaces, stripping, and
truncating to 80 characters"); stated only to be compared against the
source's `digestShortened`, which strips once more after the final
truncation. -/
def digestShortenedClaim (text : Str) : Str :=
  if digestTruncated text then
    (pyStrip (collapseWs (text.take 160))).take 80
  else text

/-- The preprocessing of StringUtil._md5 (string_util.py lines 108-118):
lowercase, then remove spaces, newlines and carriage returns.  The MD5
compression itself is `hashlib` (external to the repository) and is
passed in as the parameter `md5` of the definitions below. -/
def md5Preprocess (s : Str) : Str :=
  (s.map Char.toLower).filter (fun c => !(c = ' ' || c = '\n' || c = '\r'))

/-- StringUtil.digest (string_util.py lines 44-101).  `md5` is the hex
rendering of `hashlib.md5`, external to the repository.  `textParams` and
`hashParams` model the two optional iterables; `none` entries are pruned
exactly as in the source.  Returns the digest, or the UserError raised
when the digest contains a disallowed delimiter. -/
def digest (md5 : Str → Str) (text : Str)
    (textParams hashParams : List (Option Str)) : Except UserErr Str :=
  let short := digestShortened text
  let textParamsStr := joinCommaSpace (textParams.filterMap id)
  let hashParamsStr := (hashParams.filterMap id).flatten
  let body :=
    if digestTruncated text || !(hashParamsStr = []) then
      let md5Hash := md5 (md5Preprocess (text ++ hashParamsStr))
      if !(textParamsStr = []) then
        short ++ (' ' :: '(' :: []) ++ textParamsStr ++ (',' :: ' ' :: []) ++ md5Hash ++ (')' :: [])
      else
        short ++ (' ' :: '(' :: []) ++ md5Hash ++ (')' :: [])
    else
      if !(textParamsStr = []) then
        short ++ (' ' :: '(' :: []) ++ textParamsStr ++ (')' :: [])
      else short
  if backslashChar ∈ body ∨ ';' ∈ body then
    .error (.disallowedDelimiters body)
  else
    .ok body

/-- A concrete stand-in for the external `hashlib.md5` hex digest, used
only to instantiate counterexamples and witnesses at concrete inputs whose
evaluation never reaches the hash branch. -/
def md5Stub : Str → Str := fun _ => []

/-! ## Embedding of cl/convince/llms/completion.py -/

/-- The fields of a Completion record that participate in key computation
(completion.py lines 31-63).  `llm = none` models an unset `llm` field;
`some llmId` models `LlmKey(llm_id=llmId)`.  `trial = some t` models
`TrialKey(trial_id=t)`. -/
structure CompletionRec where
  llm : Option Str
  query : Str
  trial : Option Str
  deriving DecidableEq, Repr

/-- Completion.get_key (completion.py lines 53-63): after checking that
`llm` is set and `query` is non-empty, the completion id is
`StringUtil.digest(query, text_params=(llm_id,))`.  The `trial` field is
not read. -/
def get_key (md5 : Str → Str) (c : CompletionRec) : Except UserErr Str :=
  match c.llm with
  | none => .error .emptyLlm
  | some llmId =>
    if c.query = [] then .error .emptyQuery
    else digest md5 c.query (some llmId :: []) []

/-! ## Embedding of cl/convince/llms/completion_util.py -/

/-- CompletionUtil.to_python_eol for strings (completion_util.py lines
53-66): `replace("\r\r\n", "\n")` then `replace("\r\n", "\n")`. -/
def to_python_eol (s : Str) : Str :=
  replaceAll ('\r' :: '\n' :: []) ('\n' :: [])
    (replaceAll ('\r' :: '\r' :: '\n' :: []) ('\n' :: []) s)

/-- CompletionUtil.format_query (completion_util.py lines 26-40): strip
the query, prefix `"TrialID: {trial_id}\n"` when the context carries a
trial, and normalize line endings.  `contextTrial` models
`Context.current().trial.trial_id`. -/
def format_query (query : Str) (contextTrial : Option Str) : Str :=
  let r := pyStrip query
  let r :=
    match contextTrial with
    | some trialId => ("TrialID: ".toList) ++ trialId ++ '\n' :: r
    | none => r
  to_python_eol r

/-! ## Embedding of cl/runtime/primitive/bool_util.py -/

/-- The errors raised by BoolUtil.parse_required_bool. -/
inductive BoolParseErr
  /-- The value is None or the empty string (UserError: the value is
  empty, valid values are Y or N). -/
  | emptyValue
  /-- The value is some other string (UserError: must be Y, N or empty). -/
  | invalidValue (v : Str)
  deriving DecidableEq, Repr

/-- BoolUtil.parse_required_bool (bool_util.py lines 22-39): None and ""
raise a UserError; "Y" and "N" parse; anything else raises a UserError. -/
def parse_required_bool (fieldValue : Option Str) : Except BoolParseErr Bool :=
  match fieldValue with
  | none => .error .emptyValue
  | some v =>
    if v = [] then .error .emptyValue
    else if v = ('Y' :: []) then .ok true
    else if v = ('N' :: []) then .ok false
    else .error (.invalidValue v)

/-! ## Embedding of cl/convince/retrievers/annotating_retriever.py -/

/-- The per-retry trial key constructed by AnnotatingRetriever.retrieve
(annotating_retriever.py lines 121-129): when `max_retries > 1`, the
retry index is appended to the outer trial id after a literal backslash
(`f"{trial_id}\\{retry_index}"`), or used alone when the context has no
trial; otherwise the outer trial key is used unchanged. -/
def effectiveTrialId (outerTrial : Option Str) (maxRetries retryIndex : Nat) :
    Option Str :=
  if 1 < maxRetries then
    match outerTrial with
    | some trialId => some (trialId ++ backslashChar :: natRepr retryIndex)
    | none => some (natRepr retryIndex)
  else outerTrial

/-- AnnotatingRetriever._deannotate (annotating_retriever.py lines
287-291): remove backticks, strip, remove curly braces, strip. -/
def deannotate (text : Str) : Str :=
  pyStrip (removeAll rbrace (removeAll lbrace (pyStrip (removeAll backtickChar text))))

/-- `re.findall` for the pattern `\{(.*?)\}` (no DOTALL), as used on the
annotated text (annotating_retriever.py lines 42 and 203): scanning left
to right, each `{` opens a candidate span that is closed by the first
following `}`; a newline or the end of the string before that `}` makes
the candidate fail, and scanning resumes one character further.  The
content of a span may contain `{` but never `}` or a newline. -/
def findBracesAux : Nat → Str → List Str
  | _, [] => []
  | 0, _ => []
  | fuel+1, c :: cs =>
    if c = lbrace then
      match cs.dropWhile (fun d => !(d = rbrace || d = '\n')) with
      | d :: rest =>
        if d = rbrace then
          (cs.takeWhile (fun d => !(d = rbrace || d = '\n'))) :: findBracesAux fuel rest
        else findBracesAux fuel cs
      | [] => findBracesAux fuel cs
    else findBracesAux fuel cs

/-- See the doc comment above `findBracesAux`: the fuel (one unit per
consumed character) always suffices because each step of the scan
consumes at least one character of the text. -/
def findBraces (s : Str) : List Str := findBracesAux s.length s

/-- Does a matched span contain a curly brace (the nested-delimiter check
of annotating_retriever.py lines 204-205)? -/
def hasNested (m : Str) : Bool :=
  lbrace ∈ m || rbrace ∈ m

/-- The three semantic keys extracted from the LLM's JSON response by
`RetrieverUtil.extract_json` followed by `dict.get` (annotating_retriever.py
lines 155-159).  `none` models an absent key. -/
structure JsonFields where
  success : Option Str
  annotatedText : Option Str
  justification : Option Str
  deriving DecidableEq, Repr

/-- The exceptions that can be raised inside the try block of one retrieve
attempt (annotating_retriever.py lines 144-220); these are what `str(e)`
reports as the last trial's error information. -/
inductive AttemptError
  /-- UserError at line 167: no JSON could be extracted from the response. -/
  | jsonExtractFailed
  /-- UserError from parse_required_bool at line 170: the success flag is
  None or empty. -/
  | emptySuccess
  /-- UserError from parse_required_bool at line 170: the success flag is
  neither Y nor N. -/
  | invalidSuccess (v : Str)
  /-- RuntimeError at lines 197-200: success is Y but the annotated text
  is empty or absent. -/
  | emptyAnnotated
  /-- UserError at lines 209-212: nested curly braces on the last trial. -/
  | nestedBraces (annotatedText : Str)
  deriving DecidableEq, Repr

/-- The way one iteration of the retry loop ends. -/
inductive StepOutcome
  /-- An explicit `return` from inside the loop (`none` models returning
  Python None for an optional parameter that was not found). -/
  | ret (v : Option Str)
  /-- A `continue` to the next retry. -/
  | cont
  /-- An exception raised inside the try block (caught at line 222). -/
  | fail (e : AttemptError)
  deriving DecidableEq, Repr

/-- One iteration of the retry loop of AnnotatingRetriever.retrieve
(annotating_retriever.py lines 132-220), starting from the extracted JSON
of the LLM completion.  The upstream steps of the iteration (prompt
rendering, the LLM call through the cache, backtick unwrapping and
RetrieverUtil.extract_json) live in modules outside the extraction core
and are summarized by the `json` argument: `none` models a completion
from which no JSON object could be extracted. -/
def attemptStep (inputText : Str) (isRequired isLast : Bool)
    (json : Option JsonFields) : StepOutcome :=
  match json with
  | none => .fail .jsonExtractFailed
  | some jf =>
    match parse_required_bool jf.success with
    | .error .emptyValue => .fail .emptySuccess
    | .error (.invalidValue v) => .fail (.invalidSuccess v)
    | .ok false => if isRequired then .cont else .ret none
    | .ok true =>
      match jf.annotatedText with
      | none => .fail .emptyAnnotated
      | some annotated =>
        if annotated = [] then .fail .emptyAnnotated
        else
          let proceed :=
            let ms := findBraces annotated
            if ms.any hasNested && isLast then .fail (.nestedBraces annotated)
            else .ret (some (joinSpaces ms))
          if deannotate annotated = pyStrip inputText then proceed
          else if isLast then proceed
          else .cont

/-- The errors with which AnnotatingRetriever.retrieve itself terminates. -/
inductive RetrieveError
  /-- UserError at lines 228-233, raised when the last trial's attempt
  raised: carries the input text, the parameter description and the last
  trial's error information. -/
  | exhausted (inputText paramDescription : Str) (lastError : AttemptError)
  /-- UserError at lines 239-243, raised when the loop body completes
  without returning: carries the input text and the parameter description
  but no failure detail. -/
  | fellThrough (inputText paramDescription : Str)
  deriving DecidableEq, Repr

/-- The observable result of AnnotatingRetriever.retrieve. -/
inductive RetrieveResult
  /-- An explicit return (`none` models Python None for an optional
  parameter that was not found). -/
  | value (v : Option Str)
  /-- A raised UserError. -/
  | error (e : RetrieveError)
  deriving DecidableEq, Repr

/-- The retry loop of AnnotatingRetriever.retrieve over the remaining
retry indices (annotating_retriever.py lines 118-243).  A `continue` on
the last index falls out of the loop into the defensive UserError at
lines 239-243; an exception on the last index is rethrown as the
exhaustion UserError at lines 228-233; exceptions on earlier indices are
swallowed and the next retry runs.  The input text is stripped at line
133 before use, so both terminal errors report the stripped text. -/
def runRetries (inputText paramDescription : Str) (isRequired : Bool)
    (attempts : Nat → Option JsonFields) (maxRetries : Nat) :
    List Nat → RetrieveResult
  | [] => .error (.fellThrough (pyStrip inputText) paramDescription)
  | i :: rest =>
    match attemptStep inputText isRequired (i = maxRetries - 1) (attempts i) with
    | .ret v => .value v
    | .cont => runRetries inputText paramDescription isRequired attempts maxRetries rest
    | .fail e =>
      if i = maxRetries - 1 then
        .error (.exhausted (pyStrip inputText) paramDescription e)
      else runRetries inputText paramDescription isRequired attempts maxRetries rest

/-- AnnotatingRetriever.retrieve (annotating_retriever.py lines 100-243),
as a function of the per-retry extracted JSON results `attempts`.  When
`max_retries = 0` the loop body never runs and the defensive error
reports the unstripped input text. -/
def retrieve (inputText paramDescription : Str) (isRequired : Bool)
    (maxRetries : Nat) (attempts : Nat → Option JsonFields) : RetrieveResult :=
  if maxRetries = 0 then .error (.fellThrough inputText paramDescription)
  else runRetries inputText paramDescription isRequired attempts maxRetries
    (List.range maxRetries)

/-! ## Embedding of cl/hackathon/shared_utils.py -/

/-- Is `c` a decimal digit? -/
def isDigitChar (c : Char) : Bool := 48 ≤ c.toNat && c.toNat ≤ 57

/-- Parse a non-empty all-digit string as a natural number. -/
def parseDigits (s : Str) : Option Nat :=
  if s = [] || !(s.all isDigitChar) then none
  else some (s.foldl (fun a c => 10 * a + (c.toNat - 48)) 0)

/-- Python `int(x)` on the plain decimal fragment: an optional sign
followed by digits.  Returns `none` where Python raises ValueError (in
particular on any string containing a decimal point, which is what makes
try_str_to_float treat "10" and "10.0" differently).  Surrounding
whitespace and underscore separators are outside the modelled fragment. -/
def pyParseInt (s : Str) : Option Int :=
  match s with
  | '-' :: rest => (parseDigits rest).map (fun n => -(n : Int))
  | '+' :: rest => (parseDigits rest).map (fun n => (n : Int))
  | _ => (parseDigits s).map (fun n => (n : Int))

/-- Python `str(int)`: decimal digits with a minus sign for negative
values. -/
def intReprPy (n : Int) : Str :=
  if n < 0 then '-' :: natRepr n.natAbs else natRepr n.natAbs

/-- A parsed plain decimal float literal: sign, integer-part digits and
fraction-part digits. -/
structure DecimalLit where
  negative : Bool
  intPart : Str
  fracPart : Str
  deriving DecidableEq, Repr

/-- Split a digit string at its single decimal point, failing when the
string is not of the form `digits [ "." digits ]` with at least one
digit. -/
def splitDecimal (s : Str) : Option (Str × Str) :=
  let ip := s.takeWhile isDigitChar
  match s.drop ip.length with
  | [] => if ip = [] then none else some (ip, [])
  | '.' :: rest =>
    if !(rest.all isDigitChar) then none
    else if ip = [] && rest = [] then none
    else some (ip, rest)
  | _ => none

/-- Python `float(x)` on the plain decimal fragment (an optional sign,
digits, an optional decimal point): returns the parsed literal.
Exponents, inf/nan, underscores and surrounding whitespace are outside
the modelled fragment and return `none`; for literals of at most 15
significant digits the parse-then-repr round trip below agrees with
CPython's `str(float(x))`. -/
def pyParseFloat (s : Str) : Option DecimalLit :=
  match s with
  | '-' :: rest => (splitDecimal rest).map (fun p => ⟨true, p.1, p.2⟩)
  | '+' :: rest => (splitDecimal rest).map (fun p => ⟨false, p.1, p.2⟩)
  | _ => (splitDecimal s).map (fun p => ⟨false, p.1, p.2⟩)

/-- Python `str(float)` on the modelled fragment: leading zeros of the
integer part and trailing zeros of the fraction are dropped, an empty
integer part renders as "0", an empty fraction as ".0", and the sign is
kept (so "-0.0" stays negative as in CPython). -/
def floatReprPy (d : DecimalLit) : Str :=
  let ip :=
    match d.intPart.dropWhile (fun c => c = '0') with
    | [] => '0' :: []
    | l => l
  let fp :=
    match (d.fracPart.reverse.dropWhile (fun c => c = '0')).reverse with
    | [] => '0' :: []
    | l => l
  (if d.negative then '-' :: [] else []) ++ ip ++ '.' :: fp

/-- try_str_to_float (shared_utils.py lines 7-19): if `int(x)` succeeds
the value is returned as `str(int(x))` (the comparison
`int(x) == float(x)` always holds on the modelled fragment, where both
conversions are exact); otherwise, if `float(x)` succeeds, the value is
returned as `str(float(x))`; otherwise the string is returned
unchanged. -/
def try_str_to_float (x : Str) : Str :=
  match pyParseInt x with
  | some n => intReprPy n
  | none =>
    match pyParseFloat x with
    | some d => floatReprPy d
    | none => x

/-- The in-place canonicalization loop of manage_results (shared_utils.py
lines 27-30): every value of every result dict is passed through
try_str_to_float. -/
def canonicalize (resultsList : List (List (Str × Str))) :
    List (List (Str × Str)) :=
  resultsList.map (List.map (fun kv => (kv.1, try_str_to_float kv.2)))

/-- The column labels of `pd.DataFrame(results_list)`: all keys in order
of first appearance. -/
def columnsOf (resultsList : List (List (Str × Str))) : List Str :=
  dedupFirst (resultsList.flatMap (List.map Prod.fst))

/-- The non-missing entries of column `k`: the values of the trials whose
dict contains `k` (pandas stores NaN for the others, which every step
below ignores exactly as the source does). -/
def columnValues (resultsList : List (List (Str × Str))) (k : Str) : List Str :=
  resultsList.filterMap (alookup k)

/-- `df[k].mode()` followed by `.iloc[0]`: among the values of maximal
frequency (NaN excluded), pandas sorts ascending and row 0 therefore
holds the smallest; ties are broken toward the lexicographically smaller
string.  Returns `none` only for an all-missing column. -/
def pickMode (vals : List Str) : Option Str :=
  vals.foldl
    (fun best v =>
      match best with
      | none => some v
      | some b =>
        if vals.count b < vals.count v ∨
            (vals.count v = vals.count b ∧ strLt v b) then some v
        else some b)
    none

/-- The agreement check of manage_results (shared_utils.py lines 39-43):
`count / len(df) < AGREEMENT_THRESHOLD` with AGREEMENT_THRESHOLD = 0.20,
written exactly as the rational comparison `5 * count < n`.  (The float
division of the source is correctly rounded, so the two comparisons agree
for every trial count below 2^53.) -/
def agreementBelow (count n : Nat) : Bool :=
  5 * count < n

/-- The per-column consensus of manage_results: the modal value of the
column, kept only when its frequency clears the agreement threshold over
the number of trials `n` (the denominator counts trials with a missing
value too). -/
def modalAbove (n : Nat) (vals : List Str) : Option Str :=
  match pickMode vals with
  | none => none
  | some m => if agreementBelow (vals.count m) n then none else some m

/-- manage_results (shared_utils.py lines 21-51): canonicalize every
value with try_str_to_float, then for every column keep the modal value
when it clears the agreement threshold; the surviving values are already
strings, so the final `astype("str")` is the identity. -/
def manage_results (resultsList : List (List (Str × Str))) : List (Str × Str) :=
  let canon := canonicalize resultsList
  (columnsOf canon).filterMap
    (fun k => (modalAbove canon.length (columnValues canon k)).map (fun m => (k, m)))

/-! ## Embedding of cl/convince/llms/completion_cache.py -/

/-- Python runtime errors reached by the cache code as written. -/
inductive PyError
  /-- An attribute lookup on a name that the target module does not
  define. -/
  | attributeError (obj attr : Str)
  /-- A reference to a name that is not defined in any enclosing scope. -/
  | nameError (name : Str)
  deriving DecidableEq, Repr

/-- CompletionCache.add (completion_cache.py lines 104-163).  Its first
statement calls `CompletionUtil.normalize_value`, but completion_util.py
defines no such attribute (only format_query, format_completion,
to_python_eol and to_os_eol), so every call raises AttributeError there;
the next statement would reference the undefined name
`query_with_trial_id` (NameError).  No completion record is ever created
or written. -/
def completionCacheAdd (requestId query completion : Str)
    (trialId : Option Str) : Except PyError Unit :=
  .error (.attributeError ("CompletionUtil".toList) ("normalize_value".toList))

/-- CompletionCache.get (completion_cache.py lines 165-178): build the
completion key from the channel (llm id), the query and the trial, then
point-look-up the record store; an absent record yields None, never an
error.  The digest's own UserError (disallowed delimiters) propagates.
`store` models `Context.current().load_one` as a map from completion keys
to completion strings. -/
def completionCacheGet (md5 : Str → Str) (store : Str → Option Str)
    (channel : Option Str) (query : Str) (trialId : Option Str) :
    Except UserErr (Option Str) :=
  match get_key md5 ⟨channel, query, trialId⟩ with
  | .error e => .error e
  | .ok key => .ok (store key)

/-- The record store with no completion saved. -/
def emptyStore : Str → Option Str := fun _ => none

/-! ## Helper lemmas about the string model -/

theorem digitChar_toNat {d : Nat} (h : d < 10) : (digitChar d).toNat = 48 + d := by
  interval_cases d <;> decide

theorem isDigitChar_digitChar {d : Nat} (h : d < 10) : isDigitChar (digitChar d) = true := by
  simp [isDigitChar, digitChar_toNat h]
  omega

theorem natReprAux_foldl :
    ∀ (fuel n : Nat), n < fuel →
      (natReprAux fuel n).foldl (fun a c => 10 * a + (c.toNat - 48)) 0 = n := by
  intro fuel
  induction fuel with
  | zero => intro n h; omega
  | succ fuel ih =>
    intro n hn
    by_cases h : n < 10
    · rw [natReprAux, if_pos h]
      simp [digitChar_toNat h]
    · rw [natReprAux, if_neg h]
      rw [List.foldl_append]
      have hdiv : n / 10 < fuel := by
        have hlt : n / 10 < n := Nat.div_lt_self (by omega) (by omega)
        omega
      rw [ih (n / 10) hdiv]
      have h10 : n % 10 < 10 := Nat.mod_lt _ (by omega)
      simp [digitChar_toNat h10]
      omega

theorem natRepr_foldl (n : Nat) :
    (natRepr n).foldl (fun a c => 10 * a + (c.toNat - 48)) 0 = n :=
  natReprAux_foldl (n + 1) n (Nat.lt_succ_self n)

theorem natRepr_injective {m n : Nat} (h : natRepr m = natRepr n) : m = n := by
  have := congrArg (List.foldl (fun a c => 10 * a + (c.toNat - 48)) 0) h
  rwa [natRepr_foldl, natRepr_foldl] at this

theorem natRepr_succ_ne (n : Nat) : natRepr n ≠ natRepr (n + 1) := by
  intro h
  have := natRepr_injective h
  omega

theorem natReprAux_all_digits :
    ∀ (fuel n : Nat), ∀ c ∈ natReprAux fuel n, isDigitChar c = true := by
  intro fuel
  induction fuel with
  | zero => intro n c hc; simp [natReprAux] at hc
  | succ fuel ih =>
    intro n c hc
    by_cases h : n < 10
    · rw [natReprAux, if_pos h] at hc
      rcases List.mem_singleton.mp hc with rfl
      exact isDigitChar_digitChar h
    · rw [natReprAux, if_neg h] at hc
      rcases List.mem_append.mp hc with hc | hc
      · exact ih (n / 10) c hc
      · rcases List.mem_singleton.mp hc with rfl
        exact isDigitChar_digitChar (Nat.mod_lt _ (by omega))

theorem natRepr_all_digits (n : Nat) :
    ∀ c ∈ natRepr n, isDigitChar c = true :=
  natReprAux_all_digits (n + 1) n

theorem ne_cr_of_isDigitChar {c : Char} (h : isDigitChar c = true) : c ≠ '\r' := by
  rintro rfl
  simp [isDigitChar] at h

theorem mem_collapseWsAux (s : Str) :
    ∀ (flag : Bool) (c : Char), c ∈ collapseWsAux flag s →
      c = ' ' ∨ (c ∈ s ∧ isPySpace c = false) := by
  induction s with
  | nil => intro flag c h; simp [collapseWsAux] at h
  | cons d cs ih =>
    intro flag c h
    rw [collapseWsAux] at h
    by_cases hd : isPySpace d = true
    · rw [if_pos hd] at h
      cases flag with
      | true =>
        rw [if_pos rfl] at h
        rcases ih true c h with h1 | ⟨h2, h3⟩
        · left; exact h1
        · right; exact ⟨List.mem_cons_of_mem _ h2, h3⟩
      | false =>
        rw [if_neg (by simp)] at h
        rcases List.mem_cons.mp h with h | h
        · left; exact h
        · rcases ih true c h with h1 | ⟨h2, h3⟩
          · left; exact h1
          · right; exact ⟨List.mem_cons_of_mem _ h2, h3⟩
    · rw [if_neg hd] at h
      rcases List.mem_cons.mp h with h | h
      · subst h; right; constructor
        · exact List.mem_cons_self _ _
        · simpa using hd
      · rcases ih false c h with h1 | ⟨h2, h3⟩
        · left; exact h1
        · right; exact ⟨List.mem_cons_of_mem _ h2, h3⟩

theorem mem_collapseWs (s : Str) :
    ∀ c, c ∈ collapseWs s → c = ' ' ∨ (c ∈ s ∧ isPySpace c = false) :=
  fun c h => mem_collapseWsAux s false c h

theorem mem_pyStrip {s : Str} {c : Char} (h : c ∈ pyStrip s) : c ∈ s := by
  unfold pyStrip at h
  rw [List.mem_reverse] at h
  have h1 := (List.dropWhile_sublist isPySpace).mem h
  rw [List.mem_reverse] at h1
  exact (List.dropWhile_sublist isPySpace).mem h1

theorem pyStrip_length_le (s : Str) : (pyStrip s).length ≤ s.length := by
  unfold pyStrip
  rw [List.length_reverse]
  calc ((s.dropWhile isPySpace).reverse.dropWhile isPySpace).length
      ≤ (s.dropWhile isPySpace).reverse.length :=
        (List.dropWhile_sublist isPySpace).length_le
    _ = (s.dropWhile isPySpace).length := List.length_reverse _
    _ ≤ s.length := (List.dropWhile_sublist isPySpace).length_le

theorem replaceAll_cons_ne {p : Char} {ps rep s : Str} {a : Char} (h : ¬a = p) :
    replaceAll (p :: ps) rep (a :: s) = a :: replaceAll (p :: ps) rep s := by
  unfold replaceAll
  rw [replaceAllAux, if_neg]
  rintro ⟨h1, _⟩
  rw [List.isPrefixOf] at h1
  simp at h1
  exact h h1.1.symm

theorem replaceAll_append_of_head_notMem {p : Char} {ps rep : Str} :
    ∀ (pre rest : Str), (∀ a ∈ pre, ¬a = p) →
      replaceAll (p :: ps) rep (pre ++ rest) = pre ++ replaceAll (p :: ps) rep rest := by
  intro pre
  induction pre with
  | nil => intro rest _; simp
  | cons a pre ih =>
    intro rest hpre
    rw [List.cons_append, replaceAll_cons_ne (hpre a (List.mem_cons_self _ _)),
      ih rest (fun b hb => hpre b (List.mem_cons_of_mem _ hb))]
    simp

theorem to_python_eol_append_of_noCR {pre rest : Str} (h : '\r' ∉ pre) :
    to_python_eol (pre ++ rest) = pre ++ to_python_eol rest := by
  have hne : ∀ a ∈ pre, ¬a = '\r' := fun a ha hc => h (hc ▸ ha)
  unfold to_python_eol
  rw [replaceAll_append_of_head_notMem pre rest hne,
    replaceAll_append_of_head_notMem pre _ hne]

/-! ## Helper lemmas about the aggregator -/

theorem alookup_isSome_iff {k : Str} :
    ∀ l : List (Str × Str), (alookup k l).isSome = true ↔ k ∈ l.map Prod.fst := by
  intro l
  induction l with
  | nil => simp [alookup]
  | cons kv rest ih =>
    by_cases h : kv.1 = k
    · simp [alookup, h]
    · simp only [alookup, if_neg h, List.map_cons, List.mem_cons, ih]
      constructor
      · intro hm; right; exact hm
      · rintro (hm | hm)
        · exact absurd hm.symm h
        · exact hm

theorem alookup_canonical_map {k : Str} (f : Str → Str) :
    ∀ l : List (Str × Str),
      alookup k (l.map (fun kv => (kv.1, f kv.2))) = (alookup k l).map f := by
  intro l
  induction l with
  | nil => simp [alookup]
  | cons kv rest ih =>
    by_cases h : kv.1 = k
    · simp [alookup, h]
    · simp [alookup, h, ih]

theorem alookup_assocOf_notMem {k : Str} (g : Str → Option Str) :
    ∀ cols : List Str, k ∉ cols →
      alookup k (cols.filterMap (fun c => (g c).map (fun m => (c, m)))) = none := by
  intro cols
  induction cols with
  | nil => intro _; simp [alookup]
  | cons c cols ih =>
    intro hk
    have hkc : ¬c = k := fun hc => hk (hc ▸ List.mem_cons_self _ _)
    have hkm : k ∉ cols := fun hm => hk (List.mem_cons_of_mem _ hm)
    rw [List.filterMap_cons]
    cases hg : g c with
    | none => simpa using ih hkm
    | some m => simpa [alookup, hkc] using ih hkm

theorem alookup_assocOf {k : Str} (g : Str → Option Str) :
    ∀ cols : List Str, cols.Nodup →
      alookup k (cols.filterMap (fun c => (g c).map (fun m => (c, m)))) =
        if k ∈ cols then g k else none := by
  intro cols
  induction cols with
  | nil => intro _; simp [alookup]
  | cons c cols ih =>
    intro hnd
    rcases List.nodup_cons.mp hnd with ⟨hcn, hnd2⟩
    by_cases hck : c = k
    · subst hck
      cases hg : g c with
      | none =>
        simp only [List.filterMap_cons, hg, Option.map_none']
        rw [alookup_assocOf_notMem g cols hcn]
        simp [hg]
      | some m =>
        simp only [List.filterMap_cons, hg, Option.map_some']
        simp [alookup, hg]
    · cases hg : g c with
      | none =>
        simp only [List.filterMap_cons, hg, Option.map_none']
        rw [ih hnd2]
        by_cases hk : k ∈ cols <;> simp [hk, hck, Ne.symm hck]
      | some m =>
        simp only [List.filterMap_cons, hg, Option.map_some']
        simp only [alookup, if_neg hck]
        rw [ih hnd2]
        by_cases hk : k ∈ cols <;> simp [hk, hck, Ne.symm hck]

theorem mem_dedupFirstAux :
    ∀ (l : List Str) (seen : List Str) (x : Str),
      x ∈ dedupFirstAux seen l ↔ (x ∈ l ∧ x ∉ seen) := by
  intro l
  induction l with
  | nil => intro seen x; simp [dedupFirstAux]
  | cons y ys ih =>
    intro seen x
    rw [dedupFirstAux]
    by_cases hy : y ∈ seen
    · rw [if_pos hy, ih]
      constructor
      · rintro ⟨h1, h2⟩
        exact ⟨List.mem_cons_of_mem _ h1, h2⟩
      · rintro ⟨h1, h2⟩
        rcases List.mem_cons.mp h1 with rfl | h1
        · exact absurd hy h2
        · exact ⟨h1, h2⟩
    · rw [if_neg hy]
      constructor
      · intro h
        rcases List.mem_cons.mp h with rfl | h
        · exact ⟨List.mem_cons_self _ _, hy⟩
        · rcases (ih (y :: seen) x).mp h with ⟨h1, h2⟩
          refine ⟨List.mem_cons_of_mem _ h1, fun hc => h2 (List.mem_cons_of_mem _ hc)⟩
      · rintro ⟨h1, h2⟩
        rcases List.mem_cons.mp h1 with rfl | h1
        · exact List.mem_cons_self _ _
        · by_cases hxy : x = y
          · subst hxy; exact List.mem_cons_self _ _
          · refine List.mem_cons_of_mem _ ((ih (y :: seen) x).mpr ⟨h1, ?_⟩)
            intro hc
            rcases List.mem_cons.mp hc with hc | hc
            · exact hxy hc
            · exact h2 hc

theorem mem_dedupFirst : ∀ (l : List Str) (x : Str), x ∈ dedupFirst l ↔ x ∈ l := by
  intro l x
  unfold dedupFirst
  rw [mem_dedupFirstAux]
  simp

theorem nodup_dedupFirstAux :
    ∀ (l : List Str) (seen : List Str), (dedupFirstAux seen l).Nodup := by
  intro l
  induction l with
  | nil => intro seen; simp [dedupFirstAux]
  | cons y ys ih =>
    intro seen
    rw [dedupFirstAux]
    by_cases hy : y ∈ seen
    · rw [if_pos hy]; exact ih seen
    · rw [if_neg hy]
      refine List.nodup_cons.mpr ⟨?_, ih (y :: seen)⟩
      intro hmem
      rcases (mem_dedupFirstAux ys (y :: seen) y).mp hmem with ⟨_, h2⟩
      exact h2 (List.mem_cons_self _ _)

theorem nodup_dedupFirst (l : List Str) : (dedupFirst l).Nodup :=
  nodup_dedupFirstAux l []

theorem pickMode_foldl_spec (vals : List Str) :
    ∀ (l : List Str) (acc : Option Str) (m : Str),
      l.foldl
        (fun best v =>
          match best with
          | none => some v
          | some b =>
            if vals.count b < vals.count v ∨
                (vals.count v = vals.count b ∧ strLt v b) then some v
            else some b)
        acc = some m →
      (m ∈ l ∨ acc = some m) ∧ (∀ v ∈ l, vals.count v ≤ vals.count m) ∧
        (∀ b, acc = some b → vals.count b ≤ vals.count m) := by
  intro l
  induction l with
  | nil =>
    intro acc m h
    simp only [List.foldl_nil] at h
    exact ⟨Or.inr h, by simp, fun b hb => by rw [hb] at h; cases h; omega⟩
  | cons v l ih =>
    intro acc m h
    simp only [List.foldl_cons] at h
    cases acc with
    | none =>
      rcases ih (some v) m h with ⟨h1, h2, h3⟩
      refine ⟨?_, ?_, ?_⟩
      · rcases h1 with h1 | h1
        · exact Or.inl (List.mem_cons_of_mem _ h1)
        · cases h1; exact Or.inl (List.mem_cons_self _ _)
      · intro w hw
        rcases List.mem_cons.mp hw with rfl | hw
        · exact h3 w rfl
        · exact h2 w hw
      · intro b hb; cases hb
    | some b =>
      simp only [] at h
      by_cases hcmp : vals.count b < vals.count v ∨
          (vals.count v = vals.count b ∧ strLt v b = true)
      · rw [if_pos hcmp] at h
        rcases ih (some v) m h with ⟨h1, h2, h3⟩
        have hvm : vals.count v ≤ vals.count m := h3 v rfl
        refine ⟨?_, ?_, ?_⟩
        · rcases h1 with h1 | h1
          · exact Or.inl (List.mem_cons_of_mem _ h1)
          · cases h1; exact Or.inl (List.mem_cons_self _ _)
        · intro w hw
          rcases List.mem_cons.mp hw with rfl | hw
          · exact hvm
          · exact h2 w hw
        · intro b2 hb2
          cases hb2
          rcases hcmp with hc | ⟨hc, _⟩
          · omega
          · omega
      · rw [if_neg hcmp] at h
        rcases ih (some b) m h with ⟨h1, h2, h3⟩
        have hbm : vals.count b ≤ vals.count m := h3 b rfl
        push_neg at hcmp
        refine ⟨?_, ?_, ?_⟩
        · rcases h1 with h1 | h1
          · exact Or.inl (List.mem_cons_of_mem _ h1)
          · exact Or.inr h1
        · intro w hw
          rcases List.mem_cons.mp hw with rfl | hw
          · have := hcmp.1
            omega
          · exact h2 w hw
        · exact h3

theorem pickMode_foldl_some (vals : List Str) :
    ∀ (l : List Str) (b : Str),
      ∃ m, l.foldl
        (fun best v =>
          match best with
          | none => some v
          | some b =>
            if vals.count b < vals.count v ∨
                (vals.count v = vals.count b ∧ strLt v b) then some v
            else some b)
        (some b) = some m := by
  intro l
  induction l with
  | nil => intro b; exact ⟨b, rfl⟩
  | cons w l ih =>
    intro b
    simp only [List.foldl_cons]
    by_cases hcmp : vals.count b < vals.count w ∨
        (vals.count w = vals.count b ∧ strLt w b = true)
    · rw [if_pos hcmp]; exact ih w
    · rw [if_neg hcmp]; exact ih b

theorem pickMode_spec {vals : List Str} (h : vals ≠ []) :
    ∃ m, pickMode vals = some m ∧ m ∈ vals ∧
      ∀ v ∈ vals, vals.count v ≤ vals.count m := by
  have hsome : ∃ m, pickMode vals = some m := by
    unfold pickMode
    rcases vals with _ | ⟨v, l⟩
    · exact absurd rfl h
    · simp only [List.foldl_cons]
      exact pickMode_foldl_some _ l v
  rcases hsome with ⟨m, hm⟩
  have hspec := pickMode_foldl_spec vals vals none m (by rw [pickMode] at hm; exact hm)
  rcases hspec with ⟨h1, h2, _⟩
  rcases h1 with h1 | h1
  · exact ⟨m, hm, h1, h2⟩
  · cases h1

/-! ## Helper lemmas about the retry loop -/

theorem runRetries_cases (inputText paramDescription : Str) (isRequired : Bool)
    (attempts : Nat → Option JsonFields) (maxRetries : Nat) :
    ∀ l : List Nat,
      (∃ v, runRetries inputText paramDescription isRequired attempts maxRetries l =
        .value v) ∨
      (∃ e, runRetries inputText paramDescription isRequired attempts maxRetries l =
        .error (.exhausted (pyStrip inputText) paramDescription e)) ∨
      runRetries inputText paramDescription isRequired attempts maxRetries l =
        .error (.fellThrough (pyStrip inputText) paramDescription) := by
  intro l
  induction l with
  | nil => right; right; rfl
  | cons i rest ih =>
    rw [runRetries]
    split
    · exact Or.inl ⟨_, rfl⟩
    · exact ih
    · rename_i e _
      by_cases hi : i = maxRetries - 1
      · rw [if_pos hi]
        exact Or.inr (Or.inl ⟨e, rfl⟩)
      · rw [if_neg hi]
        exact ih

theorem runRetries_all_fail (inputText paramDescription : Str) (isRequired : Bool)
    (attempts : Nat → Option JsonFields) (maxRetries : Nat) (e : AttemptError) :
    ∀ l : List Nat,
      (∀ j ∈ l, attemptStep inputText isRequired (j = maxRetries - 1) (attempts j) =
        .fail e) →
      (maxRetries - 1) ∈ l →
      runRetries inputText paramDescription isRequired attempts maxRetries l =
        .error (.exhausted (pyStrip inputText) paramDescription e) := by
  intro l
  induction l with
  | nil => intro _ hm; cases hm
  | cons i rest ih =>
    intro hall hm
    simp only [runRetries, hall i (List.mem_cons_self _ _)]
    by_cases hi : i = maxRetries - 1
    · rw [if_pos hi]
    · rw [if_neg hi]
      refine ih (fun j hj => hall j (List.mem_cons_of_mem _ hj)) ?_
      rcases List.mem_cons.mp hm with hm | hm
      · exact absurd hm.symm hi
      · exact hm

/-! ## Claim C2 -/

/-- C2: the cache round-trip claim fails as a code bug.  Every call of
CompletionCache.add raises before any completion record is created: its
first statement calls CompletionUtil.normalize_value, which
completion_util.py does not define (and the next statement would reference
the undefined name query_with_trial_id).  The second half of the claim
holds: CompletionCache.get on a store that holds no record for the key
returns None, never an error. -/
theorem claim_c2_add_raises_and_get_absent :
    completionCacheAdd ("r1".toList) ("q".toList) ("c".toList) none =
      .error (.attributeError ("CompletionUtil".toList) ("normalize_value".toList)) ∧
    completionCacheGet md5Stub emptyStore (some ("gpt".toList)) ("q".toList) none =
      .ok none := by
  constructor
  · rfl
  · decide

/-! ## Claim C5 -/

/-- C5 counterexample: two completions with the same query and llm id but
different trial ids ("1" and "2") receive the SAME completion key
"q (gpt)", refuting the claim that get_key digests all three of
(query, llm id, trial id). -/
theorem claim_c5_counterexample :
    get_key md5Stub ⟨some ("gpt".toList), ("q".toList), some ("1".toList)⟩ =
      .ok ("q (gpt)".toList) ∧
    get_key md5Stub ⟨some ("gpt".toList), ("q".toList), some ("2".toList)⟩ =
      .ok ("q (gpt)".toList) ∧
    ¬(("1".toList : Str) = ("2".toList : Str)) := by
  refine ⟨by decide, by decide, by decide⟩

/-- C5 (amended): the identity of a Completion record is the Digest of
(query, llm id) only; the trial field never enters get_key, so two
completions that agree on query and llm id receive equal keys whatever
their trial ids are.  (Trial separation is instead achieved upstream by
CompletionUtil.format_query embedding "TrialID: ..." into the query
text.) -/
theorem claim_c5_amended (md5 : Str → Str) (llm : Option Str) (q : Str)
    (t1 t2 : Option Str) :
    get_key md5 ⟨llm, q, t1⟩ = get_key md5 ⟨llm, q, t2⟩ := rfl

/-! ## Claim C8 -/

/-- C8: the numeric-canonicalization claim fails as a code bug.
try_str_to_float("10") = "10" but try_str_to_float("10.0") = "10.0"
(Python int("10.0") raises ValueError, so the integer branch is skipped),
hence [{"f":"10"}, {"f":"10.0"}, {"f":"10"}] aggregates over TWO distinct
vote candidates for f — "10" with 2 votes and "10.0" with 1 vote — not a
single canonical candidate. -/
theorem claim_c8_canonicalization_bug :
    try_str_to_float ("10".toList) = ("10".toList) ∧
    try_str_to_float ("10.0".toList) = ("10.0".toList) ∧
    ¬(("10".toList : Str) = ("10.0".toList : Str)) ∧
    columnValues
      (canonicalize
        ((((("f".toList), ("10".toList)) :: []) ::
          ((("f".toList), ("10.0".toList)) :: []) ::
          ((("f".toList), ("10".toList)) :: []) :: []))) ("f".toList) =
      (("10".toList) :: ("10.0".toList) :: ("10".toList) :: []) := by
  refine ⟨by decide, by decide, by decide, by decide⟩

/-! ## Claim C9 -/

/-- C9 counterexample: StringUtil.digest called with empty text and no
parameters returns the empty digest instead of raising a user-facing
error, refuting the claim that empty text makes digest raise. -/
theorem claim_c9_counterexample :
    digest md5Stub [] [] [] = .ok [] := by decide

/-- C9 (amended): digest itself performs no emptiness check and returns a
digest for empty text; the emptiness of a required text is signaled to
the caller one layer up, by Completion.get_key, which raises a UserError
on an empty query before any digest is computed. -/
theorem claim_c9_amended (md5 : Str → Str) (llmId : Str) (trial : Option Str) :
    digest md5 [] [] [] = .ok [] ∧
    get_key md5 ⟨some llmId, [], trial⟩ = .error .emptyQuery := by
  constructor
  · rfl
  · rfl

/-! ## Claim C6 -/

/-- C6 counterexample: for the 81-character text of 79 "a"s followed by
" b", the procedure worded in the claim (take 160, collapse whitespace,
strip, truncate to 80) yields 79 "a"s and a trailing space, while the
source strips once more after truncating and yields just the 79 "a"s. -/
theorem claim_c6_counterexample :
    ¬digestShortened (List.replicate 79 'a' ++ (' ' :: 'b' :: [])) =
      digestShortenedClaim (List.replicate 79 'a' ++ (' ' :: 'b' :: [])) := by
  decide

/-- C6 (amended): for every single-line text of at most 80 characters the
shortened form is the text unchanged; for every text containing a newline
or longer than 80 characters, the shortened form is obtained by taking
the first 160 characters, stripping, collapsing whitespace runs to single
spaces, stripping, truncating to 80 characters and stripping once more —
so it is at most 80 characters long and contains no newline. -/
theorem claim_c6_amended (t : Str) :
    (('\n' ∉ t ∧ t.length ≤ 80) → digestShortened t = t) ∧
    (('\n' ∈ t ∨ 80 < t.length) →
      digestShortened t =
        pyStrip ((pyStrip (collapseWs (pyStrip (t.take 160)))).take 80) ∧
      (digestShortened t).length ≤ 80 ∧ '\n' ∉ digestShortened t) := by
  constructor
  · rintro ⟨h1, h2⟩
    have hf : digestTruncated t = false := by
      simp [digestTruncated, h1]
      omega
    unfold digestShortened
    rw [hf]
    simp
  · intro h2
    have ht : digestTruncated t = true := by
      rcases h2 with h | h
      · simp [digestTruncated, h]
      · simp [digestTruncated]
        right
        exact h
    have heq : digestShortened t =
        pyStrip ((pyStrip (collapseWs (pyStrip (t.take 160)))).take 80) := by
      unfold digestShortened
      rw [ht]
      simp
    refine ⟨heq, ?_, ?_⟩
    · rw [heq]
      calc (pyStrip ((pyStrip (collapseWs (pyStrip (t.take 160)))).take 80)).length
          ≤ ((pyStrip (collapseWs (pyStrip (t.take 160)))).take 80).length :=
            pyStrip_length_le _
        _ ≤ 80 := List.length_take_le _ _
    · rw [heq]
      intro hmem
      have hm1 := mem_pyStrip hmem
      have hm2 := List.mem_of_mem_take hm1
      have hm3 := mem_pyStrip hm2
      rcases mem_collapseWs _ _ hm3 with he | ⟨_, hns⟩
      · exact absurd he (by decide)
      · simp [isPySpace] at hns

/-- C6 witness: the amended truncation statement holds at the concrete
multiline text "a" ++ newline ++ "b". -/
theorem claim_c6_witness :
    digestShortened ('a' :: '\n' :: 'b' :: []) =
      pyStrip ((pyStrip (collapseWs (pyStrip (('a' :: '\n' :: 'b' :: []).take 160)))).take 80) ∧
    (digestShortened ('a' :: '\n' :: 'b' :: [])).length ≤ 80 ∧
    '\n' ∉ digestShortened ('a' :: '\n' :: 'b' :: []) :=
  (claim_c6_amended ('a' :: '\n' :: 'b' :: [])).2 (Or.inl (by decide))

/-! ## Claim C7 -/

/-- C7 counterexample: with a single retry, a required field and an
attempt whose success flag is N, the loop ends via `continue`, so the
defensive end-of-loop error is raised — it carries the input text and the
field description, but no last-attempt failure detail, contradicting the
claim that the exhaustion error always includes the failure detail. -/
theorem claim_c7_counterexample :
    retrieve ("text".toList) ("desc".toList) true 1
      (fun _ => some ⟨some ('N' :: []), some ('x' :: []), none⟩) =
      .error (.fellThrough ("text".toList) ("desc".toList)) := by
  decide

/-- C7 (amended): for at least one retry, retrieve always terminates via
an explicit return or raise, and every terminal error carries the
(stripped) input text and the field description; the error carries the
last attempt's failure detail exactly in the exception path (the
exhaustion error of lines 228-233), while the `continue`-off-the-end path
(for example a required field whose success flag is N on the last trial)
raises the defensive error of lines 239-243 without failure detail. -/
theorem claim_c7_amended (inputText paramDescription : Str) (isRequired : Bool)
    (maxRetries : Nat) (attempts : Nat → Option JsonFields)
    (hmr : 0 < maxRetries) :
    (∃ v, retrieve inputText paramDescription isRequired maxRetries attempts =
      .value v) ∨
    (∃ e, retrieve inputText paramDescription isRequired maxRetries attempts =
      .error (.exhausted (pyStrip inputText) paramDescription e)) ∨
    retrieve inputText paramDescription isRequired maxRetries attempts =
      .error (.fellThrough (pyStrip inputText) paramDescription) := by
  unfold retrieve
  rw [if_neg (by omega)]
  exact runRetries_cases inputText paramDescription isRequired attempts maxRetries
    (List.range maxRetries)

/-- C7 witness: the amended trichotomy holds at a concrete instance (one
retry, required field, success flag N), where the third alternative is
realized. -/
theorem claim_c7_witness :
    (∃ v, retrieve ("text".toList) ("desc".toList) true 1
      (fun _ => some ⟨some ('N' :: []), some ('x' :: []), none⟩) = .value v) ∨
    (∃ e, retrieve ("text".toList) ("desc".toList) true 1
      (fun _ => some ⟨some ('N' :: []), some ('x' :: []), none⟩) =
      .error (.exhausted (pyStrip ("text".toList)) ("desc".toList) e)) ∨
    retrieve ("text".toList) ("desc".toList) true 1
      (fun _ => some ⟨some ('N' :: []), some ('x' :: []), none⟩) =
      .error (.fellThrough (pyStrip ("text".toList)) ("desc".toList)) :=
  claim_c7_amended ("text".toList) ("desc".toList) true 1
    (fun _ => some ⟨some ('N' :: []), some ('x' :: []), none⟩) (by omega)

/-! ## Claim C10 -/

/-- C10: an empty (None or "") success flag is never treated as "not
found": parse_required_bool raises on it, so the attempt fails with the
empty-success error — never an explicit return — and when every attempt
carries an empty success flag, retrieve raises the exhaustion error built
from that failure on the last trial (with the next retry attempted on
non-final trials, as the retry loop's `fail` branch shows). -/
theorem claim_c10_empty_success (inputText paramDescription : Str)
    (isRequired isLast : Bool) (jf : JsonFields) (maxRetries : Nat)
    (attempts : Nat → Option JsonFields)
    (hjf : jf.success = none ∨ jf.success = some [])
    (hall : ∀ i, ∃ g, attempts i = some g ∧
      (g.success = none ∨ g.success = some []))
    (hmr : 0 < maxRetries) :
    attemptStep inputText isRequired isLast (some jf) = .fail .emptySuccess ∧
    retrieve inputText paramDescription isRequired maxRetries attempts =
      .error (.exhausted (pyStrip inputText) paramDescription .emptySuccess) := by
  have hstep : ∀ (b : Bool) (g : JsonFields),
      (g.success = none ∨ g.success = some []) →
      attemptStep inputText isRequired b (some g) = .fail .emptySuccess := by
    intro b g hg
    rcases hg with hg | hg
    · simp [attemptStep, parse_required_bool, hg]
    · simp [attemptStep, parse_required_bool, hg]
  refine ⟨hstep isLast jf hjf, ?_⟩
  unfold retrieve
  rw [if_neg (by omega)]
  refine runRetries_all_fail inputText paramDescription isRequired attempts
    maxRetries .emptySuccess (List.range maxRetries) ?_ ?_
  · intro j _
    rcases hall j with ⟨g, hg1, hg2⟩
    rw [hg1]
    exact hstep _ g hg2
  · exact List.mem_range.mpr (by omega)

/-- C10 witness: at the concrete instance of two retries whose JSON
result has no success key at all, the attempt fails with the
empty-success error and retrieve raises the exhaustion error carrying
it. -/
theorem claim_c10_witness :
    attemptStep ("t".toList) true true (some ⟨none, some ('x' :: []), none⟩) =
      .fail .emptySuccess ∧
    retrieve ("t".toList) ("d".toList) true 2
      (fun _ => some ⟨none, some ('x' :: []), none⟩) =
      .error (.exhausted (pyStrip ("t".toList)) ("d".toList) .emptySuccess) :=
  claim_c10_empty_success ("t".toList) ("d".toList) true true
    ⟨none, some ('x' :: []), none⟩ 2 (fun _ => some ⟨none, some ('x' :: []), none⟩)
    (Or.inl rfl) (fun _ => ⟨⟨none, some ('x' :: []), none⟩, rfl, Or.inl rfl⟩)
    (by omega)

/-! ## Claim C4 -/

/-- C4: when an attempt's JSON reports success Y with a non-empty
annotated text whose deannotation does not reproduce the stripped input
text, a non-final retry silently continues to the next retry, and the
final retry tolerates the mismatch: it proceeds to extract the
brace-enclosed spans and (provided no span contains a nested brace, which
is the separately specified nested-delimiter error) returns them joined
by a single space. -/
theorem claim_c4_last_retry_tolerance (inputText : Str) (isRequired : Bool)
    (a : Str) (j : Option Str) (ha : ¬a = [])
    (hmm : ¬deannotate a = pyStrip inputText) :
    attemptStep inputText isRequired false (some ⟨some ('Y' :: []), some a, j⟩) =
      .cont ∧
    ((findBraces a).any hasNested = false →
      attemptStep inputText isRequired true (some ⟨some ('Y' :: []), some a, j⟩) =
        .ret (some (joinSpaces (findBraces a)))) := by
  have hparse : parse_required_bool (some ('Y' :: [])) = .ok true := rfl
  constructor
  · simp only [attemptStep, hparse, if_neg ha, if_neg hmm]
    simp
  · intro hno
    simp only [attemptStep, hparse, if_neg ha, if_neg hmm]
    simp [hno]

/-- C4 witness: at input text "ab" with annotated text "{a}" the
deannotation "a" differs from the input, the non-final attempt continues,
and the final attempt returns the single extracted span "a". -/
theorem claim_c4_witness :
    attemptStep ("ab".toList) true false
      (some ⟨some ('Y' :: []), some (lbrace :: 'a' :: rbrace :: []), none⟩) =
      .cont ∧
    attemptStep ("ab".toList) true true
      (some ⟨some ('Y' :: []), some (lbrace :: 'a' :: rbrace :: []), none⟩) =
      .ret (some (joinSpaces (findBraces (lbrace :: 'a' :: rbrace :: [])))) := by
  have h := claim_c4_last_retry_tolerance ("ab".toList) true
    (lbrace :: 'a' :: rbrace :: []) none (by decide) (by decide)
  exact ⟨h.1, h.2 (by decide)⟩

/-! ## Claim C3 -/

/-- C3: whenever max_retries > 1, consecutive retry indices of the same
retrieve call produce different effective trial identifiers (the outer
trial id, when present, with the retry index appended after a backslash),
and hence different formatted cache-key queries for the same query text
and llm — so attempt i+1 never looks up attempt i's cached completion.
The hypothesis excludes carriage returns in the outer trial id, which the
line-ending normalization of format_query could otherwise rewrite. -/
theorem claim_c3_trial_isolation (outerTrial : Option Str) (query : Str)
    (maxRetries i : Nat) (hmr : 1 < maxRetries)
    (hcr : ∀ s, outerTrial = some s → '\r' ∉ s) :
    effectiveTrialId outerTrial maxRetries i ≠
      effectiveTrialId outerTrial maxRetries (i + 1) ∧
    format_query query (effectiveTrialId outerTrial maxRetries i) ≠
      format_query query (effectiveTrialId outerTrial maxRetries (i + 1)) := by
  have hids : ∃ t1 t2 : Str,
      effectiveTrialId outerTrial maxRetries i = some t1 ∧
      effectiveTrialId outerTrial maxRetries (i + 1) = some t2 ∧
      ¬t1 = t2 ∧ '\r' ∉ t1 ∧ '\r' ∉ t2 := by
    unfold effectiveTrialId
    simp only [if_pos hmr]
    cases outerTrial with
    | none =>
      refine ⟨natRepr i, natRepr (i + 1), rfl, rfl, natRepr_succ_ne i, ?_, ?_⟩
      · intro hc; exact ne_cr_of_isDigitChar (natRepr_all_digits _ _ hc) rfl
      · intro hc; exact ne_cr_of_isDigitChar (natRepr_all_digits _ _ hc) rfl
    | some t =>
      refine ⟨t ++ backslashChar :: natRepr i,
        t ++ backslashChar :: natRepr (i + 1), rfl, rfl, ?_, ?_, ?_⟩
      · intro heq
        have hc := List.append_cancel_left heq
        injection hc with _ h2
        exact natRepr_succ_ne i h2
      · intro hc
        rcases List.mem_append.mp hc with hc | hc
        · exact hcr t rfl hc
        · rcases List.mem_cons.mp hc with hc | hc
          · exact (by decide : ¬('\r' : Char) = backslashChar) hc
          · exact ne_cr_of_isDigitChar (natRepr_all_digits _ _ hc) rfl
      · intro hc
        rcases List.mem_append.mp hc with hc | hc
        · exact hcr t rfl hc
        · rcases List.mem_cons.mp hc with hc | hc
          · exact (by decide : ¬('\r' : Char) = backslashChar) hc
          · exact ne_cr_of_isDigitChar (natRepr_all_digits _ _ hc) rfl
  rcases hids with ⟨t1, t2, he1, he2, hne, hcr1, hcr2⟩
  rw [he1, he2]
  have hfq : ∀ tid : Str, '\r' ∉ tid →
      format_query query (some tid) =
        (("TrialID: ".toList) ++ (tid ++ ('\n' :: []))) ++
          to_python_eol (pyStrip query) := by
    intro tid hnocr
    have hdef : format_query query (some tid) =
        to_python_eol (("TrialID: ".toList) ++ (tid ++ '\n' :: pyStrip query)) := rfl
    have hassoc : ("TrialID: ".toList) ++ (tid ++ '\n' :: pyStrip query) =
        ((("TrialID: ".toList) ++ (tid ++ ('\n' :: []))) ++ pyStrip query) := by
      simp
    rw [hdef, hassoc]
    apply to_python_eol_append_of_noCR
    intro hc
    rcases List.mem_append.mp hc with hc | hc
    · revert hc; decide
    · rcases List.mem_append.mp hc with hc | hc
      · exact hnocr hc
      · revert hc; decide
  refine ⟨fun hc => hne (Option.some.inj hc), ?_⟩
  rw [hfq t1 hcr1, hfq t2 hcr2]
  intro heq
  have h1 := List.append_cancel_right heq
  have h2 := List.append_cancel_left h1
  have h3 := List.append_cancel_right h2
  exact hne h3

/-- C3 witness: with outer trial id "t", two retries and consecutive
retry indices 0 and 1, both the effective trial ids and the formatted
cache-key queries differ. -/
theorem claim_c3_witness :
    effectiveTrialId (some ('t' :: [])) 2 0 ≠
      effectiveTrialId (some ('t' :: [])) 2 1 ∧
    format_query ("hello".toList) (effectiveTrialId (some ('t' :: [])) 2 0) ≠
      format_query ("hello".toList) (effectiveTrialId (some ('t' :: [])) 2 1) :=
  claim_c3_trial_isolation (some ('t' :: [])) ("hello".toList) 2 0 (by omega)
    (fun s h => by injection h with h2; rw [← h2]; decide)

/-! ## Claim C1 -/

theorem canonicalize_length (rs : List (List (Str × Str))) :
    (canonicalize rs).length = rs.length := by
  simp [canonicalize]

theorem nodup_columnsOf (rs : List (List (Str × Str))) :
    (columnsOf rs).Nodup :=
  nodup_dedupFirst _

theorem mem_columnsOf (rs : List (List (Str × Str))) (k : Str) :
    k ∈ columnsOf rs ↔ ∃ m ∈ rs, (alookup k m).isSome = true := by
  unfold columnsOf
  rw [mem_dedupFirst, List.mem_flatMap]
  constructor
  · rintro ⟨m, hm, hk⟩
    exact ⟨m, hm, (alookup_isSome_iff m).mpr hk⟩
  · rintro ⟨m, hm, hk⟩
    exact ⟨m, hm, (alookup_isSome_iff m).mp hk⟩

theorem alookup_manage_results (rs : List (List (Str × Str))) (k : Str) :
    alookup k (manage_results rs) =
      if k ∈ columnsOf (canonicalize rs) then
        modalAbove (canonicalize rs).length (columnValues (canonicalize rs) k)
      else none := by
  have hdef : manage_results rs =
      (columnsOf (canonicalize rs)).filterMap
        (fun c => (modalAbove (canonicalize rs).length
          (columnValues (canonicalize rs) c)).map (fun m => (c, m))) := rfl
  rw [hdef]
  exact alookup_assocOf _ _ (nodup_columnsOf _)

theorem modalAbove_eq {n : Nat} {vals : List Str} {m : Str}
    (h : pickMode vals = some m) :
    modalAbove n vals =
      if agreementBelow (vals.count m) n then none else some m := by
  unfold modalAbove
  rw [h]

/-- C1: for every list of trial result maps and every field name present
in at least one map, manage_results determines the modal value of the
(canonicalized) column — a value of maximal frequency among the trials
where the field is present, missing entries excluded — and keeps the
field if and only if 5 times that frequency reaches the number N of all
trials (the rational form of frequency / N ≥ 0.20, with missing entries
still counted in N); a field present in no map is absent from the
output. -/
theorem claim_c1_consensus (rs : List (List (Str × Str))) (k : Str) :
    ((∃ m ∈ rs, (alookup k m).isSome = true) →
      ∃ modal, pickMode (columnValues (canonicalize rs) k) = some modal ∧
        modal ∈ columnValues (canonicalize rs) k ∧
        (∀ v ∈ columnValues (canonicalize rs) k,
          (columnValues (canonicalize rs) k).count v ≤
            (columnValues (canonicalize rs) k).count modal) ∧
        (rs.length ≤ 5 * (columnValues (canonicalize rs) k).count modal →
          alookup k (manage_results rs) = some modal) ∧
        (5 * (columnValues (canonicalize rs) k).count modal < rs.length →
          alookup k (manage_results rs) = none)) ∧
    ((∀ m ∈ rs, alookup k m = none) → alookup k (manage_results rs) = none) := by
  constructor
  · intro hex
    have hmemc : k ∈ columnsOf (canonicalize rs) := by
      rw [mem_columnsOf]
      rcases hex with ⟨m, hm, hk⟩
      refine ⟨m.map (fun kv => (kv.1, try_str_to_float kv.2)), ?_, ?_⟩
      · exact List.mem_map_of_mem _ hm
      · rw [alookup_canonical_map]
        rcases Option.isSome_iff_exists.mp hk with ⟨v, hv⟩
        rw [hv]
        rfl
    have hvne : columnValues (canonicalize rs) k ≠ [] := by
      intro hnil
      rcases hex with ⟨m, hm, hk⟩
      have hmem2 : m.map (fun kv => (kv.1, try_str_to_float kv.2)) ∈
          canonicalize rs := List.mem_map_of_mem _ hm
      have hnone := List.filterMap_eq_nil_iff.mp hnil _ hmem2
      rw [alookup_canonical_map] at hnone
      rcases Option.isSome_iff_exists.mp hk with ⟨v, hv⟩
      rw [hv] at hnone
      simp at hnone
    rcases pickMode_spec hvne with ⟨modal, hpm, hmem, hmax⟩
    refine ⟨modal, hpm, hmem, hmax, ?_, ?_⟩
    · intro hth
      rw [alookup_manage_results, if_pos hmemc, modalAbove_eq hpm, if_neg]
      simp only [agreementBelow, canonicalize_length]
      simp only [decide_eq_true_eq]
      omega
    · intro hth
      rw [alookup_manage_results, if_pos hmemc, modalAbove_eq hpm, if_pos]
      simp only [agreementBelow, canonicalize_length]
      simp only [decide_eq_true_eq]
      omega
  · intro hall
    rw [alookup_manage_results, if_neg]
    intro hcontra
    rw [mem_columnsOf] at hcontra
    rcases hcontra with ⟨m2, hm2, hk2⟩
    rcases List.mem_map.mp hm2 with ⟨m, hm, rfl⟩
    rw [alookup_canonical_map, hall m hm] at hk2
    simp at hk2

/-- C1 witness: over the three trials {"f": "A"}, {"f": "A"}, {"f": "B"}
the modal value of column f is "A" with frequency 2 out of 3 trials,
5 * 2 ≥ 3 clears the 0.20 threshold, and the output maps f to "A". -/
theorem claim_c1_witness :
    ∃ modal,
      pickMode (columnValues (canonicalize
        ((((("f".toList), ("A".toList)) :: []) ::
          ((("f".toList), ("A".toList)) :: []) ::
          ((("f".toList), ("B".toList)) :: []) :: []))) ("f".toList)) = some modal ∧
      modal ∈ columnValues (canonicalize
        ((((("f".toList), ("A".toList)) :: []) ::
          ((("f".toList), ("A".toList)) :: []) ::
          ((("f".toList), ("B".toList)) :: []) :: []))) ("f".toList) ∧
      (∀ v ∈ columnValues (canonicalize
        ((((("f".toList), ("A".toList)) :: []) ::
          ((("f".toList), ("A".toList)) :: []) ::
          ((("f".toList), ("B".toList)) :: []) :: []))) ("f".toList),
        (columnValues (canonicalize
          ((((("f".toList), ("A".toList)) :: []) ::
            ((("f".toList), ("A".toList)) :: []) ::
            ((("f".toList), ("B".toList)) :: []) :: []))) ("f".toList)).count v ≤
          (columnValues (canonicalize
            ((((("f".toList), ("A".toList)) :: []) ::
              ((("f".toList), ("A".toList)) :: []) ::
              ((("f".toList), ("B".toList)) :: []) :: []))) ("f".toList)).count modal) ∧
      (((((("f".toList), ("A".toList)) :: []) ::
          ((("f".toList), ("A".toList)) :: []) ::
          ((("f".toList), ("B".toList)) :: []) :: []) : List (List (Str × Str))).length ≤
          5 * (columnValues (canonicalize
            ((((("f".toList), ("A".toList)) :: []) ::
              ((("f".toList), ("A".toList)) :: []) ::
              ((("f".toList), ("B".toList)) :: []) :: []))) ("f".toList)).count modal →
        alookup ("f".toList) (manage_results
          ((((("f".toList), ("A".toList)) :: []) ::
            ((("f".toList), ("A".toList)) :: []) ::
            ((("f".toList), ("B".toList)) :: []) :: []))) = some modal) ∧
      (5 * (columnValues (canonicalize
          ((((("f".toList), ("A".toList)) :: []) ::
            ((("f".toList), ("A".toList)) :: []) ::
            ((("f".toList), ("B".toList)) :: []) :: []))) ("f".toList)).count modal <
          ((((("f".toList), ("A".toList)) :: []) ::
            ((("f".toList), ("A".toList)) :: []) ::
            ((("f".toList), ("B".toList)) :: []) :: []) : List (List (Str × Str))).length →
        alookup ("f".toList) (manage_results
          ((((("f".toList), ("A".toList)) :: []) ::
            ((("f".toList), ("A".toList)) :: []) ::
            ((("f".toList), ("B".toList)) :: []) :: []))) = none) :=
  (claim_c1_consensus
    ((((("f".toList), ("A".toList)) :: []) ::
      ((("f".toList), ("A".toList)) :: []) ::
      ((("f".toList), ("B".toList)) :: []) :: [])) ("f".toList)).1
    ⟨((("f".toList), ("A".toList)) :: []), by decide, by decide⟩

end HackathonSpec
